import Mathlib

/-!
Shallow embedding of the environment-configuration module
(EnvironmentManager in the environment manager source file) and of the
retry utility (TestUtils.retry in tests/api/utils/testUtils.ts) of the
contact-list-api-tests repository, together with theorems settling the
frozen claims about them.

Modelling conventions:
  - A JavaScript plain-object record of string keys is an association
    list where assignment overwrites the existing binding for a key.
  - The filesystem is a function from environment name to the optional
    content of the corresponding environments/NAME.env file; a result of
    none models a file that does not exist.
  - JavaScript parseInt with radix 10 is parseIntJs, returning none for
    NaN.
  - Thrown errors become Except values or explicit error components of
    the result type; a mutable manager object becomes explicit state
    passing on ManagerState.
-/

/-- Lookup in an association list: the binding written for a key, if any.
Models reading a property of a JavaScript record object. -/
def assocGet {α : Type} (m : List (String × α)) (k : String) : Option α :=
  match m with
  | [] => none
  | (k2, v) :: rest => if k2 = k then some v else assocGet rest k

/-- Update of an association list: overwrite the binding for a key, or
append it. Models assignment to a property of a JavaScript record object,
so the last assignment for a key wins. -/
def assocSet {α : Type} (m : List (String × α)) (k : String) (v : α) :
    List (String × α) :=
  match m with
  | [] => [(k, v)]
  | (k2, v2) :: rest =>
    if k2 = k then (k, v) :: rest else (k2, v2) :: assocSet rest k v

theorem assocGet_assocSet_self {α : Type} (m : List (String × α)) (k : String) (v : α) :
    assocGet (assocSet m k v) k = some v := by
  induction m with
  | nil => simp [assocGet, assocSet]
  | cons hd tl ih =>
    by_cases h : hd.1 = k
    · simp [assocGet, assocSet, h]
    · simp [assocGet, assocSet, h, ih]

/-- JavaScript string-or-default: the expression a or-else d, where an
absent value and the empty string are both falsy. -/
def jsOr (o : Option String) (d : String) : String :=
  match o with
  | none => d
  | some s => if s = "" then d else s

/-- Numeric value of a list of decimal digit characters, most significant
first. -/
def digitsVal (ds : List Char) : Nat :=
  ds.foldl (fun n c => 10 * n + (c.toNat - 48)) 0

/-- JavaScript parseInt with radix 10: skip leading whitespace, read an
optional sign and then the longest prefix of decimal digits; none models
NaN (no digits found). -/
def parseIntJs (s : String) : Option Int :=
  let cs := s.toList.dropWhile Char.isWhitespace
  let signAndRest : Int × List Char :=
    match cs with
    | '-' :: rest => (-1, rest)
    | '+' :: rest => (1, rest)
    | _ => (1, cs)
  let ds := signAndRest.2.takeWhile Char.isDigit
  if ds.isEmpty then none
  else some (signAndRest.1 * (digitsVal ds : Int))

/-- JavaScript String.prototype.split with a one-character separator, on
the character list of the string: the segments between occurrences of the
separator, in order. Splitting the empty string yields one empty
segment. -/
def jsSplitChar (sep : Char) : List Char → List (List Char)
  | [] => [[]]
  | x :: rest =>
    match jsSplitChar sep rest with
    | [] => if x = sep then [[], []] else [[x]]
    | h :: t => if x = sep then [] :: h :: t else (x :: h) :: t

/-- JavaScript String.prototype.trim on a character list: drop leading and
trailing whitespace. -/
def jsTrim (s : List Char) : List Char :=
  (((s.dropWhile Char.isWhitespace).reverse.dropWhile Char.isWhitespace).reverse)

/-- JavaScript Array.prototype.join with a one-character separator, on
character lists. -/
def jsJoin (sep : Char) : List (List Char) → List Char
  | [] => []
  | [p] => p
  | p :: rest => p ++ sep :: jsJoin sep rest

/-- JavaScript String.prototype.toLowerCase, as a map of the
character-wise lowercase over the string. -/
def toLowerStr (s : String) : String :=
  String.mk (s.data.map Char.toLower)

/-- One iteration of the forEach body of EnvironmentManager.parseEnvFile:
trim the line, skip it when blank or a comment, otherwise split the
trimmed line on the separator, take the first segment as key and the rest
rejoined and trimmed as value, and store the binding when the key is
nonempty. -/
def parseLine (vars : List (String × String)) (line : List Char) :
    List (String × String) :=
  let trimmed := jsTrim line
  if trimmed = [] then vars
  else if trimmed.head? = some '#' then vars
  else
    match jsSplitChar '=' trimmed with
    | [] => vars
    | key :: valueParts =>
      let value := jsTrim (jsJoin '=' valueParts)
      if key = [] then vars else assocSet vars (String.mk key) (String.mk value)

/-- Fold of parseLine over a list of lines, from a given accumulated
record. -/
def parseLinesFrom (init : List (String × String)) (lines : List (List Char)) :
    List (String × String) :=
  lines.foldl parseLine init

/-- EnvironmentManager.parseEnvFile: split the content on newline
characters and process every line with parseLine, starting from the empty
record. -/
def parseEnvFile (content : String) : List (String × String) :=
  parseLinesFrom [] (jsSplitChar '\n' content.data)

/-- Resolved configuration record, one field per field of the
EnvironmentConfig interface. The integer fields are Option Int because
JavaScript parseInt can produce NaN. -/
structure EnvironmentConfig where
  environment : String
  baseURL : String
  apiTimeout : Option Int
  retryCount : Option Int
  headless : Bool
  slowMo : Option Int
  testUserEmailPrefix : String
  testUserPassword : String
  reportTitle : String
  slackChannel : String
  enableScreenshots : Bool
  enableVideos : Bool
  enableTraces : Bool
  deriving Repr, DecidableEq

/-- The two error exits of EnvironmentManager.loadEnvironmentFile, kept as
distinct constructors carrying the data the thrown message mentions. -/
inductive ConfigError where
  | fileNotFound (environment : String)
  | missingRequiredKey (key : String) (environment : String)
  deriving Repr, DecidableEq

/-- The required list inside EnvironmentManager.loadEnvironmentFile, in
source order. -/
def requiredKeys : List String := ["BASE_URL", "API_TIMEOUT", "TEST_USER_EMAIL_PREFIX", "TEST_USER_PASSWORD"]

/-- JavaScript falsiness of a record read: absent or the empty string. -/
def isFalsy (o : Option String) : Bool :=
  match o with
  | none => true
  | some s => s = ""

/-- The first required key rejected by the validation loop of
EnvironmentManager.loadEnvironmentFile, if any. -/
def findMissing (vars : List (String × String)) : Option String :=
  requiredKeys.find? (fun k => isFalsy (assocGet vars k))

/-- EnvironmentManager.loadEnvironmentFile: read the file for the
environment (error when it does not exist), parse it, run the
required-keys validation (error naming the first falsy required key and
the environment), then build the config record with the same defaulting
expressions as the source. -/
def loadEnvironmentFile (fs : String → Option String) (environment : String) :
    Except ConfigError EnvironmentConfig :=
  match fs environment with
  | none => Except.error (ConfigError.fileNotFound environment)
  | some content =>
    let envVars := parseEnvFile content
    match findMissing envVars with
    | some key => Except.error (ConfigError.missingRequiredKey key environment)
    | none =>
      Except.ok {
        environment := environment
        baseURL := (assocGet envVars "BASE_URL").getD ""
        apiTimeout := parseIntJs (jsOr (assocGet envVars "API_TIMEOUT") "30000")
        retryCount := parseIntJs (jsOr (assocGet envVars "RETRY_COUNT") "1")
        headless := !(assocGet envVars "HEADLESS" == some "false")
        slowMo := parseIntJs (jsOr (assocGet envVars "SLOW_MO") "0")
        testUserEmailPrefix := (assocGet envVars "TEST_USER_EMAIL_PREFIX").getD ""
        testUserPassword := (assocGet envVars "TEST_USER_PASSWORD").getD ""
        reportTitle := jsOr (assocGet envVars "REPORT_TITLE") (environment ++ " Test Results")
        slackChannel := jsOr (assocGet envVars "SLACK_CHANNEL") "#tests"
        enableScreenshots := assocGet envVars "ENABLE_SCREENSHOTS" == some "true"
        enableVideos := assocGet envVars "ENABLE_VIDEOS" == some "true"
        enableTraces := assocGet envVars "ENABLE_TRACES" == some "true" }

/-- The recognized environment names, as listed in initialize and
setEnvironment. -/
def recognizedEnvs : List String := ["local", "qa", "staging", "production"]

/-- Mutable state of the EnvironmentManager singleton: the currently
selected environment name and the config cache keyed by environment
name. -/
structure ManagerState where
  currentEnvironment : String
  configCache : List (String × EnvironmentConfig)
  deriving Repr, DecidableEq

/-- State of the manager right after construction: current environment
staging, empty cache. -/
def initialState : ManagerState :=
  { currentEnvironment := "staging", configCache := [] }

/-- EnvironmentManager.initialize: take TEST_ENV or-else ENVIRONMENT
or-else staging, lowercase it, and select it when recognized, otherwise
warn and select staging. The Bool result records whether the warning was
emitted. -/
def initManager (st : ManagerState) (testEnv environment : Option String) :
    ManagerState × Bool :=
  let env := toLowerStr (jsOr testEnv (jsOr environment "staging"))
  if recognizedEnvs.contains env then
    ({ st with currentEnvironment := env }, false)
  else
    ({ st with currentEnvironment := "staging" }, true)

/-- EnvironmentManager.getConfig: resolve the argument or-else the current
environment, return the cached config when present, otherwise load from
the file, cache the result and return it. -/
def getConfig (fs : String → Option String) (st : ManagerState)
    (env : Option String) : Except ConfigError (EnvironmentConfig × ManagerState) :=
  let environment := jsOr env st.currentEnvironment
  match assocGet st.configCache environment with
  | some cfg => Except.ok (cfg, st)
  | none =>
    match loadEnvironmentFile fs environment with
    | Except.error e => Except.error e
    | Except.ok config =>
      Except.ok (config, { st with configCache := assocSet st.configCache environment config })

/-- EnvironmentManager.setEnvironment: reject an unrecognized name with an
error message, leaving the state untouched, otherwise select the name.
The optional String result is the thrown message, none when no throw. -/
def setEnvironment (st : ManagerState) (environment : String) :
    ManagerState × Option String :=
  if recognizedEnvs.contains environment then
    ({ st with currentEnvironment := environment }, none)
  else
    (st, some ("Invalid environment: " ++ environment))

/-- Observable outcome of one run of TestUtils.retry: either the value
returned from inside the loop together with the number of invocations
made, or the thrown error. A thrown error of none models the throw of the
uninitialized lastError variable (JavaScript undefined). The delays list
records, in order, every backoff wait performed between attempts. -/
inductive RetryOutcome (E T : Type) where
  | returned (value : T) (attemptsUsed : Nat) (delays : List Nat)
  | thrown (error : Option E) (attemptsUsed : Nat) (delays : List Nat)
  deriving Repr, DecidableEq

/-- The backoff expression of TestUtils.retry: baseDelay * 2 ^ (attempt - 1). -/
def backoffDelay (baseDelay attempt : Nat) : Nat :=
  baseDelay * 2 ^ (attempt - 1)

/-- Loop of TestUtils.retry, with the loop counter attempt made explicit
and the loop bound carried as remaining = maxAttempts + 1 - attempt, the
number of iterations still allowed (zero models loop exit, so the final
throw of lastError fires). The operation is a function from the 1-based
invocation index to the outcome of that invocation. -/
def retryGo {E T : Type} (op : Nat → Except E T) (baseDelay : Nat)
    (attempt : Nat) (remaining : Nat) (lastError : Option E)
    (delays : List Nat) : RetryOutcome E T :=
  match remaining with
  | 0 => RetryOutcome.thrown lastError (attempt - 1) delays
  | r + 1 =>
    match op attempt with
    | Except.ok v => RetryOutcome.returned v attempt delays
    | Except.error e =>
      if r = 0 then RetryOutcome.thrown (some e) attempt delays
      else retryGo op baseDelay (attempt + 1) r (some e)
        (delays ++ [backoffDelay baseDelay attempt])

/-- TestUtils.retry: run the loop from attempt 1 with maxAttempts
iterations allowed, lastError uninitialized and no delays performed yet. -/
def retry {E T : Type} (op : Nat → Except E T) (maxAttempts baseDelay : Nat) :
    RetryOutcome E T :=
  retryGo op baseDelay 1 maxAttempts none []

/-- Delays performed during a retry run. -/
def delaysOf {E T : Type} : RetryOutcome E T → List Nat
  | RetryOutcome.returned _ _ ds => ds
  | RetryOutcome.thrown _ _ ds => ds

/-- Number of invocations of the operation during a retry run. -/
def attemptsOf {E T : Type} : RetryOutcome E T → Nat
  | RetryOutcome.returned _ n _ => n
  | RetryOutcome.thrown _ n _ => n

/-- The list of backoff delays after n consecutive failures starting at
attempt 1: baseDelay * 2 ^ 0, baseDelay * 2 ^ 1, ..., baseDelay * 2 ^ (n-1). -/
def delayList (baseDelay n : Nat) : List Nat :=
  (List.range' 1 n).map (backoffDelay baseDelay)

theorem exists_error_of_isOk_false {E T : Type} {x : Except E T}
    (h : x.isOk = false) : ∃ e, x = Except.error e := by
  cases x with
  | ok v => simp [Except.isOk, Except.toBool] at h
  | error e => exact ⟨e, rfl⟩

theorem exists_ok_of_isOk_true {E T : Type} {x : Except E T}
    (h : x.isOk = true) : ∃ v, x = Except.ok v := by
  cases x with
  | ok v => exact ⟨v, rfl⟩
  | error e => simp [Except.isOk, Except.toBool] at h

theorem retryGo_all_fail {E T : Type} (op : Nat → Except E T) (d : Nat) :
    ∀ r a le ds, 1 ≤ r →
      (∀ j, a ≤ j → j < a + r → (op j).isOk = false) →
      ∃ e, op (a + r - 1) = Except.error e ∧
        retryGo op d a r le ds =
          RetryOutcome.thrown (some e) (a + r - 1)
            (ds ++ (List.range' a (r - 1)).map (backoffDelay d)) := by
  intro r
  induction r with
  | zero => intro a le ds h; omega
  | succ r ih =>
    intro a le ds _ hfail
    have ha : (op a).isOk = false := hfail a (Nat.le_refl a) (by omega)
    obtain ⟨e, he⟩ := exists_error_of_isOk_false ha
    by_cases hr : r = 0
    · subst hr
      refine ⟨e, ?_, ?_⟩
      · simpa using he
      · simp [retryGo, he]
    · obtain ⟨e2, he2, hrec⟩ :=
        ih (a + 1) (some e) (ds ++ [backoffDelay d a]) (by omega)
          (fun j hj1 hj2 => hfail j (by omega) (by omega))
      refine ⟨e2, ?_, ?_⟩
      · have harith : a + 1 + r - 1 = a + (r + 1) - 1 := by omega
        rw [← harith]; exact he2
      · simp only [retryGo, he]
        rw [if_neg hr, hrec]
        have harith : a + 1 + r - 1 = a + (r + 1) - 1 := by omega
        rw [harith]
        have hrange : List.range' a (r + 1 - 1) = a :: List.range' (a + 1) (r - 1) := by
          rw [show r + 1 - 1 = (r - 1) + 1 by omega]
          exact List.range'_succ a (r - 1) 1
        rw [hrange]
        simp

theorem retryGo_first_success {E T : Type} (op : Nat → Except E T) (d : Nat)
    (k : Nat) (v : T) (hok : op k = Except.ok v) :
    ∀ r a le ds, a ≤ k → k < a + r →
      (∀ j, a ≤ j → j < k → (op j).isOk = false) →
      retryGo op d a r le ds =
        RetryOutcome.returned v k
          (ds ++ (List.range' a (k - a)).map (backoffDelay d)) := by
  intro r
  induction r with
  | zero => intro a le ds h1 h2; omega
  | succ r ih =>
    intro a le ds h1 h2 hfail
    by_cases hak : a = k
    · subst hak
      simp [retryGo, hok]
    · have ha : (op a).isOk = false := hfail a (Nat.le_refl a) (by omega)
      obtain ⟨e, he⟩ := exists_error_of_isOk_false ha
      have hr : r ≠ 0 := by omega
      simp only [retryGo, he]
      rw [if_neg hr]
      rw [ih (a + 1) (some e) (ds ++ [backoffDelay d a]) (by omega) (by omega)
        (fun j hj1 hj2 => hfail j (by omega) hj2)]
      rw [List.append_assoc]
      have hrange : List.range' a (k - a) = a :: List.range' (a + 1) (k - (a + 1)) := by
        rw [show k - a = (k - (a + 1)) + 1 by omega]
        exact List.range'_succ a (k - (a + 1)) 1
      rw [hrange]
      simp

theorem retryGo_blind {E T E2 T2 : Type} (op : Nat → Except E T)
    (op2 : Nat → Except E2 T2) (d : Nat)
    (hiso : ∀ j, (op j).isOk = (op2 j).isOk) :
    ∀ r a le le2 ds,
      delaysOf (retryGo op d a r le ds) = delaysOf (retryGo op2 d a r le2 ds) ∧
      attemptsOf (retryGo op d a r le ds) = attemptsOf (retryGo op2 d a r le2 ds) := by
  intro r
  induction r with
  | zero => intro a le le2 ds; simp [retryGo, delaysOf, attemptsOf]
  | succ r ih =>
    intro a le le2 ds
    cases h1 : op a with
    | ok v =>
      have h2ok : (op2 a).isOk = true := by rw [← hiso a, h1]; rfl
      obtain ⟨v2, h2⟩ := exists_ok_of_isOk_true h2ok
      simp [retryGo, h1, h2, delaysOf, attemptsOf]
    | error e =>
      have h2err : (op2 a).isOk = false := by rw [← hiso a, h1]; rfl
      obtain ⟨e2, h2⟩ := exists_error_of_isOk_false h2err
      by_cases hr : r = 0
      · subst hr; simp [retryGo, h1, h2, delaysOf, attemptsOf]
      · simp only [retryGo, h1, h2]
        rw [if_neg hr, if_neg hr]
        exact ih (a + 1) (some e) (some e2) (ds ++ [backoffDelay d a])

theorem retryGo_thrown_isSome {E T : Type} (op : Nat → Except E T) (d : Nat) :
    ∀ r a le ds, 1 ≤ r → ∀ err t ds2,
      retryGo op d a r le ds = RetryOutcome.thrown err t ds2 →
      err.isSome = true := by
  intro r
  induction r with
  | zero => intro a le ds h; omega
  | succ r ih =>
    intro a le ds _ err t ds2 heq
    cases h1 : op a with
    | ok v => simp [retryGo, h1] at heq
    | error e =>
      by_cases hr : r = 0
      · subst hr
        simp [retryGo, h1] at heq
        rw [← heq.1]
        rfl
      · simp only [retryGo, h1] at heq
        rw [if_neg hr] at heq
        exact ih (a + 1) (some e) (ds ++ [backoffDelay d a]) (by omega) err t ds2 heq

/-- Characterization of a retry run for a positive attempt budget: either
some attempt succeeds, the first success is returned with one invocation
per preceding failure and one backoff delay after each failure, or every
allowed attempt fails and the error of the final attempt is thrown. -/
theorem retry_char {E T : Type} (op : Nat → Except E T) (maxAttempts baseDelay : Nat)
    (h : 1 ≤ maxAttempts) :
    (∃ k v, 1 ≤ k ∧ k ≤ maxAttempts ∧ op k = Except.ok v ∧
      (∀ j, 1 ≤ j → j < k → (op j).isOk = false) ∧
      retry op maxAttempts baseDelay =
        RetryOutcome.returned v k (delayList baseDelay (k - 1))) ∨
    ((∀ j, 1 ≤ j → j ≤ maxAttempts → (op j).isOk = false) ∧
      ∃ e, op maxAttempts = Except.error e ∧
        retry op maxAttempts baseDelay =
          RetryOutcome.thrown (some e) maxAttempts
            (delayList baseDelay (maxAttempts - 1))) := by
  by_cases hall : ∀ j, 1 ≤ j → j ≤ maxAttempts → (op j).isOk = false
  · right
    refine ⟨hall, ?_⟩
    obtain ⟨e, he, heq⟩ := retryGo_all_fail op baseDelay maxAttempts 1 none [] h
      (fun j hj1 hj2 => hall j hj1 (by omega))
    have harith : 1 + maxAttempts - 1 = maxAttempts := by omega
    rw [harith] at he heq
    exact ⟨e, he, by rw [retry, heq]; rfl⟩
  · left
    push_neg at hall
    obtain ⟨j0, hj1, hj2, hj3⟩ := hall
    have hex : ∃ j, 1 ≤ j ∧ j ≤ maxAttempts ∧ (op j).isOk = true := by
      refine ⟨j0, hj1, hj2, ?_⟩
      cases hb : (op j0).isOk
      · exact absurd hb hj3
      · rfl
    classical
    let k := Nat.find hex
    obtain ⟨hk1, hk2, hk3⟩ := Nat.find_spec hex
    obtain ⟨v, hv⟩ := exists_ok_of_isOk_true hk3
    have hmin : ∀ j, 1 ≤ j → j < k → (op j).isOk = false := by
      intro j hj hjk
      have hnp := Nat.find_min hex hjk
      cases hb : (op j).isOk
      · rfl
      · exact absurd ⟨hj, by omega, hb⟩ hnp
    refine ⟨k, v, hk1, hk2, hv, hmin, ?_⟩
    have heq := retryGo_first_success op baseDelay k v hv maxAttempts 1 none []
      hk1 (by omega) (fun j hj1 hj2 => hmin j hj1 hj2)
    rw [retry, heq]
    rfl

theorem delayList_getElem (d n i : Nat) (h : i < n) :
    (delayList d n)[i]? = some (d * 2 ^ i) := by
  rw [delayList, List.getElem?_map, List.getElem?_range' 1 1 h]
  simp [backoffDelay]

/-- Operation used for witnesses: fails on attempts 1 and 2, succeeds with
42 on attempt 3. -/
def opW : Nat → Except String Nat :=
  fun k => if k ≤ 2 then Except.error ("fail " ++ toString k) else Except.ok 42

/-- Operation with the same success pattern as opW but different error and
value types. -/
def opW2 : Nat → Except Nat Bool :=
  fun k => if k ≤ 2 then Except.error k else Except.ok true

/-- Operation that always fails with the same error. -/
def opWfail : Nat → Except String Nat :=
  fun _ => Except.error "boom"

/-- C2: with a positive attempt budget, retry either returns the value of
the first successful invocation, invoking the operation exactly once per
preceding failure and never after a success, or, when all allowed
invocations fail, throws exactly the error produced by the final
invocation, unwrapped; the operation is invoked at most maxAttempts
times and no failure is swallowed. -/
theorem retry_first_success_or_last_error {E T : Type} (op : Nat → Except E T)
    (maxAttempts baseDelay : Nat) (h : 1 ≤ maxAttempts) :
    (∃ k v, 1 ≤ k ∧ k ≤ maxAttempts ∧ op k = Except.ok v ∧
      (∀ j, 1 ≤ j → j < k → (op j).isOk = false) ∧
      retry op maxAttempts baseDelay =
        RetryOutcome.returned v k (delayList baseDelay (k - 1))) ∨
    ((∀ j, 1 ≤ j → j ≤ maxAttempts → (op j).isOk = false) ∧
      ∃ e, op maxAttempts = Except.error e ∧
        retry op maxAttempts baseDelay =
          RetryOutcome.thrown (some e) maxAttempts
            (delayList baseDelay (maxAttempts - 1))) :=
  retry_char op maxAttempts baseDelay h

theorem retry_first_success_or_last_error_witness :
    (∃ k v, 1 ≤ k ∧ k ≤ 3 ∧ opW k = Except.ok v ∧
      (∀ j, 1 ≤ j → j < k → (opW j).isOk = false) ∧
      retry opW 3 5 = RetryOutcome.returned v k (delayList 5 (k - 1))) ∨
    ((∀ j, 1 ≤ j → j ≤ 3 → (opW j).isOk = false) ∧
      ∃ e, opW 3 = Except.error e ∧
        retry opW 3 5 = RetryOutcome.thrown (some e) 3 (delayList 5 2)) :=
  retry_first_success_or_last_error opW 3 5 (by decide)

/-- C3: first, whenever the invocation at attempt k fails with attempts
remaining (k below maxAttempts), the k-th backoff wait equals
baseDelay times 2 to the power k minus 1; second, the retry decision
never inspects the error or the value: two operations with the same
success pattern produce the same delays and the same number of
invocations, whatever their errors and values; third, with maxAttempts
one, a failing operation is invoked once and its error thrown with no
delay incurred. -/
theorem retry_backoff_and_error_blind :
    (∀ (E T : Type) (op : Nat → Except E T) (m d k : Nat), 1 ≤ k → k < m →
      (∀ j, 1 ≤ j → j ≤ k → (op j).isOk = false) →
      (delaysOf (retry op m d))[k - 1]? = some (d * 2 ^ (k - 1))) ∧
    (∀ (E T E2 T2 : Type) (op : Nat → Except E T) (op2 : Nat → Except E2 T2)
      (m d : Nat), (∀ j, (op j).isOk = (op2 j).isOk) →
      delaysOf (retry op m d) = delaysOf (retry op2 m d) ∧
      attemptsOf (retry op m d) = attemptsOf (retry op2 m d)) ∧
    (∀ (E T : Type) (op : Nat → Except E T) (d : Nat) (e : E),
      op 1 = Except.error e →
      retry op 1 d = RetryOutcome.thrown (some e) 1 []) := by
  refine ⟨?_, ?_, ?_⟩
  · intro E T op m d k hk1 hkm hfail
    rcases retry_char op m d (by omega) with
      ⟨t, v, ht1, htm, hok, hmin, heq⟩ | ⟨hall, e, he, heq⟩
    · have htk : k < t := by
        by_contra hle
        have := hfail t ht1 (by omega)
        rw [hok] at this
        simp [Except.isOk, Except.toBool] at this
      rw [heq]
      exact delayList_getElem d (t - 1) (k - 1) (by omega)
    · rw [heq]
      exact delayList_getElem d (m - 1) (k - 1) (by omega)
  · intro E T E2 T2 op op2 m d hiso
    exact retryGo_blind op op2 d hiso m 1 none none []
  · intro E T op d e he
    simp [retry, retryGo, he]

theorem retry_backoff_and_error_blind_witness :
    (delaysOf (retry opW 3 5))[0]? = some (5 * 2 ^ 0) ∧
    (delaysOf (retry opW 3 5) = delaysOf (retry opW2 3 5) ∧
      attemptsOf (retry opW 3 5) = attemptsOf (retry opW2 3 5)) ∧
    retry opWfail 1 7 = RetryOutcome.thrown (some "boom") 1 [] :=
  ⟨retry_backoff_and_error_blind.1 String Nat opW 3 5 1 (by decide) (by decide)
    (by
      intro j h1 h2
      have hj : j = 1 := by omega
      subst hj
      decide),
   retry_backoff_and_error_blind.2.1 String Nat Nat Bool opW opW2 3 5
    (by
      intro j
      by_cases hj : j ≤ 2 <;>
        simp [opW, opW2, hj, Except.isOk, Except.toBool]),
   retry_backoff_and_error_blind.2.2 String Nat opWfail 7 "boom" rfl⟩

/-- C9: with a positive attempt budget every thrown error is the recorded
error of an actual invocation (the throw after the loop, whose recorded
error could be uninitialized, is unreachable); with a budget of zero the
operation is never invoked and the uninitialized lastError, modelled as
none, is thrown. -/
theorem retry_final_throw_unreachable :
    (∀ (E T : Type) (op : Nat → Except E T) (m d : Nat), 1 ≤ m →
      ∀ err t ds, retry op m d = RetryOutcome.thrown err t ds →
        err.isSome = true) ∧
    (∀ (E T : Type) (op : Nat → Except E T) (d : Nat),
      retry op 0 d = RetryOutcome.thrown none 0 []) :=
  ⟨fun _ _ op m d hm err t ds heq =>
    retryGo_thrown_isSome op d m 1 none [] hm err t ds heq,
   fun _ _ _ _ => rfl⟩

/-- Filesystem with no environment files at all. -/
def fsEmpty : String → Option String := fun _ => none

/-- Environment file content with the required keys only. -/
def envContentNoFlags : String :=
  "BASE_URL=https://x.test\nAPI_TIMEOUT=100\nTEST_USER_EMAIL_PREFIX=p\nTEST_USER_PASSWORD=w"

/-- Filesystem holding envContentNoFlags for the qa environment. -/
def fsNoFlags : String → Option String :=
  fun e => if e = "qa" then some envContentNoFlags else none

/-- The config that loading envContentNoFlags for qa produces. -/
def cfgNoFlags : EnvironmentConfig :=
  { environment := "qa", baseURL := "https://x.test", apiTimeout := some 100,
    retryCount := some 1, headless := true, slowMo := some 0,
    testUserEmailPrefix := "p", testUserPassword := "w",
    reportTitle := "qa Test Results", slackChannel := "#tests",
    enableScreenshots := false, enableVideos := false, enableTraces := false }

/-- Manager state whose cache already holds a config for qa. -/
def stCached : ManagerState :=
  { currentEnvironment := "staging", configCache := [("qa", cfgNoFlags)] }

theorem retry_final_throw_unreachable_witness :
    (some "boom" : Option String).isSome = true ∧
    retry opWfail 0 7 = RetryOutcome.thrown none 0 [] :=
  ⟨retry_final_throw_unreachable.1 String Nat opWfail 1 7 (by decide)
      (some "boom") 1 [] (by decide),
   retry_final_throw_unreachable.2 String Nat opWfail 7⟩

theorem getConfig_cache_hit (fs : String → Option String) (st : ManagerState)
    (env : String) (cfg : EnvironmentConfig) (henv : env ≠ "")
    (h : assocGet st.configCache env = some cfg) :
    getConfig fs st (some env) = Except.ok (cfg, st) := by
  simp [getConfig, jsOr, henv, h]

theorem getConfig_ok_cached (fs : String → Option String) (st st1 : ManagerState)
    (env : String) (cfg : EnvironmentConfig) (henv : env ≠ "")
    (h : getConfig fs st (some env) = Except.ok (cfg, st1)) :
    assocGet st1.configCache env = some cfg := by
  have hjs : jsOr (some env) st.currentEnvironment = env := by simp [jsOr, henv]
  cases hcache : assocGet st.configCache env with
  | some c =>
    simp [getConfig, hjs, hcache] at h
    rw [h.2, h.1] at hcache
    exact hcache
  | none =>
    cases hload : loadEnvironmentFile fs env with
    | error e => simp [getConfig, hjs, hcache, hload] at h
    | ok config =>
      simp [getConfig, hjs, hcache, hload] at h
      rw [← h.2, ← h.1]
      exact assocGet_assocSet_self st.configCache env config

/-- C1: an environment name whose lowercase form is not recognized makes
initialization emit the warning and select staging, so that a subsequent
no-argument config resolution is exactly a resolution of staging; the
unrecognized name itself never produces a failure. -/
theorem unrecognized_env_resolves_as_staging (raw : String) (st : ManagerState)
    (fs : String → Option String) (h1 : raw ≠ "")
    (h2 : recognizedEnvs.contains (toLowerStr raw) = false) :
    (initManager st (some raw) none).2 = true ∧
    (initManager st (some raw) none).1.currentEnvironment = "staging" ∧
    getConfig fs (initManager st (some raw) none).1 none =
      getConfig fs (initManager st (some raw) none).1 (some "staging") := by
  have henv : jsOr (some raw) (jsOr none "staging") = raw := by simp [jsOr, h1]
  have h2m : toLowerStr raw ∉ recognizedEnvs := by simpa using h2
  have hinit : initManager st (some raw) none =
      ({ st with currentEnvironment := "staging" }, true) := by
    simp [initManager, henv, h2m]
  rw [hinit]
  refine ⟨rfl, rfl, ?_⟩
  simp [getConfig, jsOr]

theorem unrecognized_env_resolves_as_staging_witness :
    (initManager initialState (some "DEV") none).2 = true ∧
    (initManager initialState (some "DEV") none).1.currentEnvironment = "staging" ∧
    getConfig fsEmpty (initManager initialState (some "DEV") none).1 none =
      getConfig fsEmpty (initManager initialState (some "DEV") none).1 (some "staging") :=
  unrecognized_env_resolves_as_staging "DEV" initialState fsEmpty
    (by decide) (by decide)

/-- C4: resolving a recognized environment fails in exactly two cases,
missing source file and first falsy required key, carried by two distinct
error constructors that name the environment and, for the second, the
specific key; when neither case applies a config is returned. -/
theorem load_failure_modes (fs : String → Option String) (env : String) :
    (fs env = none →
      loadEnvironmentFile fs env = Except.error (ConfigError.fileNotFound env)) ∧
    (∀ content, fs env = some content →
      (∀ k, findMissing (parseEnvFile content) = some k →
        loadEnvironmentFile fs env =
          Except.error (ConfigError.missingRequiredKey k env) ∧
        k ∈ requiredKeys ∧ isFalsy (assocGet (parseEnvFile content) k) = true) ∧
      (findMissing (parseEnvFile content) = none →
        ∃ cfg, loadEnvironmentFile fs env = Except.ok cfg)) ∧
    (∀ e1 k e2, ConfigError.fileNotFound e1 ≠ ConfigError.missingRequiredKey k e2) := by
  refine ⟨?_, ?_, ?_⟩
  · intro h
    simp [loadEnvironmentFile, h]
  · intro content hc
    constructor
    · intro k hk
      have hk2 : List.find? (fun k => isFalsy (assocGet (parseEnvFile content) k))
          requiredKeys = some k := hk
      refine ⟨?_, List.mem_of_find?_eq_some hk2, ?_⟩
      · simp [loadEnvironmentFile, hc, hk]
      · have h3 := List.find?_some hk2
        simpa using h3
    · intro hnone
      cases hload : loadEnvironmentFile fs env with
      | error e =>
        exfalso
        simp [loadEnvironmentFile, hc, hnone] at hload
      | ok cfg => exact ⟨cfg, rfl⟩
  · intro e1 k e2 h
    exact ConfigError.noConfusion h

theorem load_failure_modes_witness :
    loadEnvironmentFile fsEmpty "qa" =
      Except.error (ConfigError.fileNotFound "qa") :=
  (load_failure_modes fsEmpty "qa").1 rfl

/-- C5: a second resolution of the same recognized name returns the very
config and state produced by the first one, reading no source at all (the
second call works for an arbitrary filesystem), so the source is read at
most once per name and the cached config is never mutated. -/
theorem getConfig_idempotent (fs fs2 : String → Option String)
    (st st1 : ManagerState) (env : String) (cfg : EnvironmentConfig)
    (henv : env ≠ "")
    (h : getConfig fs st (some env) = Except.ok (cfg, st1)) :
    getConfig fs2 st1 (some env) = Except.ok (cfg, st1) :=
  getConfig_cache_hit fs2 st1 env cfg henv
    (getConfig_ok_cached fs st st1 env cfg henv h)

theorem getConfig_idempotent_witness :
    getConfig fsEmpty
      { currentEnvironment := "staging",
        configCache := [("qa", cfgNoFlags)] } (some "qa") =
      Except.ok (cfgNoFlags,
        { currentEnvironment := "staging",
          configCache := [("qa", cfgNoFlags)] }) :=
  getConfig_idempotent fsNoFlags fsEmpty initialState
    { currentEnvironment := "staging", configCache := [("qa", cfgNoFlags)] }
    "qa" cfgNoFlags (by decide) rfl

/-- C10: switching to a recognized environment clears no cache entry and
changes only the selected name, so a later no-argument resolution of the
newly selected environment is served from the existing cache without any
source read; switching to an unrecognized name throws and leaves the
state untouched. -/
theorem setEnvironment_frame (st : ManagerState) (env : String) :
    (recognizedEnvs.contains env = true →
      (setEnvironment st env).2 = none ∧
      (setEnvironment st env).1.currentEnvironment = env ∧
      (setEnvironment st env).1.configCache = st.configCache ∧
      ∀ cfg fs, assocGet st.configCache env = some cfg →
        getConfig fs (setEnvironment st env).1 none =
          Except.ok (cfg, (setEnvironment st env).1)) ∧
    (recognizedEnvs.contains env = false →
      (setEnvironment st env).2.isSome = true ∧
      (setEnvironment st env).1 = st) := by
  constructor
  · intro h
    have hm : env ∈ recognizedEnvs := by simpa using h
    refine ⟨by simp [setEnvironment, hm], by simp [setEnvironment, hm],
      by simp [setEnvironment, hm], ?_⟩
    intro cfg fs hcfg
    simp [setEnvironment, hm, getConfig, jsOr, hcfg]
  · intro h
    have hm : env ∉ recognizedEnvs := by simpa using h
    exact ⟨by simp [setEnvironment, hm], by simp [setEnvironment, hm]⟩

theorem setEnvironment_frame_witness :
    getConfig fsEmpty (setEnvironment stCached "qa").1 none =
      Except.ok (cfgNoFlags, (setEnvironment stCached "qa").1) :=
  ((setEnvironment_frame stCached "qa").1 (by decide)).2.2.2 cfgNoFlags fsEmpty
    (by decide)

theorem jsSplitChar_ne_nil (sep : Char) (s : List Char) :
    jsSplitChar sep s ≠ [] := by
  cases s with
  | nil => simp [jsSplitChar]
  | cons x rest =>
    simp only [jsSplitChar]
    cases h : jsSplitChar sep rest with
    | nil => by_cases hx : x = sep <;> simp [hx]
    | cons a t => by_cases hx : x = sep <;> simp [hx]

theorem jsJoin_jsSplitChar (sep : Char) (s : List Char) :
    jsJoin sep (jsSplitChar sep s) = s := by
  induction s with
  | nil => rfl
  | cons x rest ih =>
    cases h : jsSplitChar sep rest with
    | nil => exact absurd h (jsSplitChar_ne_nil sep rest)
    | cons a t =>
      rw [h] at ih
      by_cases hx : x = sep
      · subst hx
        simp only [jsSplitChar, h, if_pos rfl]
        simpa [jsJoin] using ih
      · simp only [jsSplitChar, h, if_neg hx]
        cases t with
        | nil =>
          simp only [jsJoin] at ih ⊢
          rw [ih]
        | cons b t2 =>
          simp only [jsJoin] at ih ⊢
          rw [← ih]
          simp

theorem jsSplitChar_head (sep : Char) :
    ∀ (s key : List Char) (rest : List (List Char)),
      jsSplitChar sep s = key :: rest →
      key = s.takeWhile (fun c => !(c == sep)) := by
  intro s
  induction s with
  | nil =>
    intro key rest h
    simp only [jsSplitChar, List.cons.injEq] at h
    simp [← h.1]
  | cons x rest2 ih =>
    intro key rest h
    cases h2 : jsSplitChar sep rest2 with
    | nil => exact absurd h2 (jsSplitChar_ne_nil sep rest2)
    | cons a t =>
      by_cases hx : x = sep
      · subst hx
        rw [jsSplitChar, h2] at h
        simp only [if_true, List.cons.injEq] at h
        rw [← h.1]
        simp [List.takeWhile]
      · rw [jsSplitChar, h2] at h
        simp only [if_neg hx, List.cons.injEq] at h
        rw [← h.1]
        have ha := ih a t h2
        have hbeq : (x == sep) = false := by simpa using hx
        simp [List.takeWhile, hbeq, ← ha]

/-- Environment file content exercising the duplicate-key rule. -/
def envContentDup : String :=
  "BASE_URL=https://x.test\nAPI_TIMEOUT=5000\nTEST_USER_EMAIL_PREFIX=p\nTEST_USER_PASSWORD=w\nRETRY_COUNT=1\nRETRY_COUNT=9"

/-- Filesystem holding envContentDup for the qa environment. -/
def fsDup : String → Option String :=
  fun e => if e = "qa" then some envContentDup else none

/-- C6: parsing is line by line; a blank line or a line whose trimmed form
starts with a hash mark is ignored; a remaining line binds the segment of
its trimmed form before the first separator, as key, to everything after
the first separator, trimmed, as value; rebinding a key overwrites, so the
last occurrence wins, as on the duplicate RETRY_COUNT example; the
comment-and-blank example parses as stated. -/
theorem parse_env_line_semantics :
    (∀ init ls1 l ls2, (jsTrim l = [] ∨ (jsTrim l).head? = some '#') →
      parseLinesFrom init (ls1 ++ l :: ls2) = parseLinesFrom init (ls1 ++ ls2)) ∧
    (∀ init ls l key valueParts,
      jsTrim l ≠ [] → (jsTrim l).head? ≠ some '#' →
      jsSplitChar '=' (jsTrim l) = key :: valueParts → key ≠ [] →
      parseLinesFrom init (ls ++ [l]) =
        assocSet (parseLinesFrom init ls) (String.mk key)
          (String.mk (jsTrim (jsJoin '=' valueParts)))) ∧
    (∀ s key rest, jsSplitChar '=' s = key :: rest →
      key = s.takeWhile (fun c => !(c == '=')) ∧ jsJoin '=' (key :: rest) = s) ∧
    (∀ (vars : List (String × String)) (k v : String),
      assocGet (assocSet vars k v) k = some v) ∧
    assocGet (parseEnvFile "RETRY_COUNT=1\nRETRY_COUNT=9") "RETRY_COUNT" = some "9" ∧
    Except.map EnvironmentConfig.retryCount (loadEnvironmentFile fsDup "qa") =
      Except.ok (some 9) ∧
    assocGet (parseEnvFile "BASE_URL=https://x.test\n# comment\n\nAPI_TIMEOUT=5000")
      "BASE_URL" = some "https://x.test" ∧
    assocGet (parseEnvFile "BASE_URL=https://x.test\n# comment\n\nAPI_TIMEOUT=5000")
      "API_TIMEOUT" = some "5000" := by
  refine ⟨?_, ?_, ?_, ?_, rfl, rfl, rfl, rfl⟩
  · intro init ls1 l ls2 hig
    have hstep : ∀ A, parseLine A l = A := by
      intro A
      rcases hig with h | h
      · simp [parseLine, h]
      · by_cases ht : jsTrim l = []
        · simp [parseLine, ht]
        · simp [parseLine, ht, h]
    simp [parseLinesFrom, List.foldl_append, hstep]
  · intro init ls l key vp h1 h2 h3 h4
    simp [parseLinesFrom, List.foldl_append, parseLine, h1, h2, h3, h4]
  · intro s key rest h
    refine ⟨jsSplitChar_head '=' s key rest h, ?_⟩
    rw [← h]
    exact jsJoin_jsSplitChar '=' s
  · intro vars k v
    exact assocGet_assocSet_self vars k v

theorem parse_env_line_semantics_witness :
    parseLinesFrom [] (["A=1".data] ++ ["A = b=c".data]) =
      assocSet (parseLinesFrom [] ["A=1".data]) (String.mk "A ".data)
        (String.mk (jsTrim (jsJoin '=' [" b".data, "c".data]))) :=
  parse_env_line_semantics.2.1 [] ["A=1".data] "A = b=c".data "A ".data
    [" b".data, "c".data] (by decide) (by decide) (by decide) (by decide)

/-- C7 counterexample: a source that sets none of the capture keys (in
particular does not set them to the literal false) resolves with all
three capture flags false, contradicting a default of true for them. -/
theorem capture_flags_default_counterexample :
    assocGet (parseEnvFile envContentNoFlags) "ENABLE_SCREENSHOTS" = none ∧
    loadEnvironmentFile fsNoFlags "qa" = Except.ok cfgNoFlags ∧
    cfgNoFlags.enableScreenshots = false ∧
    cfgNoFlags.enableVideos = false ∧
    cfgNoFlags.enableTraces = false :=
  ⟨rfl, rfl, rfl, rfl, rfl⟩

/-- C7 amended: headless defaults to true and is false exactly when the
source sets HEADLESS to the literal false; each capture flag defaults to
false and is true exactly when the source sets its key to the literal
true. -/
theorem bool_field_defaults (fs : String → Option String) (env content : String)
    (cfg : EnvironmentConfig) (hc : fs env = some content)
    (h : loadEnvironmentFile fs env = Except.ok cfg) :
    (cfg.headless = true ↔
      assocGet (parseEnvFile content) "HEADLESS" ≠ some "false") ∧
    (cfg.enableScreenshots = true ↔
      assocGet (parseEnvFile content) "ENABLE_SCREENSHOTS" = some "true") ∧
    (cfg.enableVideos = true ↔
      assocGet (parseEnvFile content) "ENABLE_VIDEOS" = some "true") ∧
    (cfg.enableTraces = true ↔
      assocGet (parseEnvFile content) "ENABLE_TRACES" = some "true") := by
  cases hm : findMissing (parseEnvFile content) with
  | some k => simp [loadEnvironmentFile, hc, hm] at h
  | none =>
    simp [loadEnvironmentFile, hc, hm] at h
    subst h
    refine ⟨?_, ?_, ?_, ?_⟩ <;> simp

theorem bool_field_defaults_witness :
    (cfgNoFlags.headless = true ↔
      assocGet (parseEnvFile envContentNoFlags) "HEADLESS" ≠ some "false") ∧
    (cfgNoFlags.enableScreenshots = true ↔
      assocGet (parseEnvFile envContentNoFlags) "ENABLE_SCREENSHOTS" = some "true") ∧
    (cfgNoFlags.enableVideos = true ↔
      assocGet (parseEnvFile envContentNoFlags) "ENABLE_VIDEOS" = some "true") ∧
    (cfgNoFlags.enableTraces = true ↔
      assocGet (parseEnvFile envContentNoFlags) "ENABLE_TRACES" = some "true") :=
  bool_field_defaults fsNoFlags "qa" envContentNoFlags cfgNoFlags rfl rfl

/-- Environment file content with API_TIMEOUT absent and the other
required keys present. -/
def envContentNoTimeout : String :=
  "BASE_URL=https://x.test\nTEST_USER_EMAIL_PREFIX=p\nTEST_USER_PASSWORD=w"

/-- Filesystem holding envContentNoTimeout for the qa environment. -/
def fsNoTimeout : String → Option String :=
  fun e => if e = "qa" then some envContentNoTimeout else none

/-- C8 counterexample: with API_TIMEOUT absent from the source, resolution
does not succeed with the 30000 default; it fails the required-key
validation, naming API_TIMEOUT. -/
theorem api_timeout_absent_counterexample :
    assocGet (parseEnvFile envContentNoTimeout) "API_TIMEOUT" = none ∧
    loadEnvironmentFile fsNoTimeout "qa" =
      Except.error (ConfigError.missingRequiredKey "API_TIMEOUT" "qa") :=
  ⟨rfl, rfl⟩

/-- C8 amended: when API_TIMEOUT is absent or empty in the source (and
BASE_URL, checked first, is present), resolution fails with the
missing-required-key error naming API_TIMEOUT; the 30000 fallback in the
config builder is unreachable for an absent key. -/
theorem api_timeout_required (fs : String → Option String) (env content : String)
    (hc : fs env = some content)
    (hmiss : isFalsy (assocGet (parseEnvFile content) "API_TIMEOUT") = true)
    (hbase : isFalsy (assocGet (parseEnvFile content) "BASE_URL") = false) :
    loadEnvironmentFile fs env =
      Except.error (ConfigError.missingRequiredKey "API_TIMEOUT" env) := by
  have hfm : findMissing (parseEnvFile content) = some "API_TIMEOUT" := by
    simp [findMissing, requiredKeys, List.find?, hbase, hmiss]
  simp [loadEnvironmentFile, hc, hfm]

theorem api_timeout_required_witness :
    loadEnvironmentFile fsNoTimeout "qa" =
      Except.error (ConfigError.missingRequiredKey "API_TIMEOUT" "qa") :=
  api_timeout_required fsNoTimeout "qa" envContentNoTimeout rfl rfl rfl
